import Mathlib

/-!
Verification of `snapraid-btrfs-runner.py` against its natural-language
specification.  The script orchestrates a snapshot/parity maintenance cycle:
it runs external `snapraid-btrfs` commands, drains their output streams,
classifies exit codes, applies a delete-threshold guard, and reports the
outcome via email and a Discord webhook.

The Python source is shallowly embedded below: pure computations (argument
vector construction, exit-code classification, diff classification, log
truncation) become Lean functions; the `run()` orchestration becomes a
state machine over an explicit `World` describing the results of the
external commands; the concurrent stream tees become functions over an
explicit interleaving schedule.
-/

set_option maxRecDepth 100000

namespace SnapraidBtrfsRunner

/-- Log severities used for child output: `logging.OUTPUT` (level 15) for the
child's stdout and `logging.OUTERR` (level 25) for its stderr
(`setup_logger`). -/
inductive LogLevel where
  | OUTPUT : LogLevel
  | OUTERR : LogLevel
deriving DecidableEq, Repr

/-- Result of one spawned child process: its exit code and the lines produced
on each of its two streams (as delivered by `readline`). -/
structure ProcessResult where
  exitCode : Int
  stdoutLines : List String
  stderrLines : List String
deriving DecidableEq, Repr

/-- The configuration fields of `config` that the orchestrator reads
(`load_config` coerces `deletethreshold` and `older-than` to int, the enable
flags to bool, and leaves the rest as strings). -/
structure Config where
  sbExec : String
  sbConf : String
  snapperExec : String
  snapraidExec : String
  deletethreshold : Int
  touch : Bool
  pool : Bool
  poolDir : String
  cleanup : Bool
  scrubEnabled : Bool
  scrubPlan : String
  scrubOlderThan : Int
  snapperConfigs : String
  snapperConfigsFile : String
deriving DecidableEq, Repr

/-- The environment a single run observes: whether the preflight checks
succeed, and the result of each external command the run may spawn. -/
structure World where
  snapraidExecFound : Bool
  snapraidConfExists : Bool
  sbExecFound : Bool
  snapperExecFound : Bool
  touchRes : ProcessResult
  diffRes : ProcessResult
  syncRes : ProcessResult
  poolRes : ProcessResult
  cleanupRes : ProcessResult
  scrubRes : ProcessResult
deriving Repr

/-- The error raised by `snapraid_btrfs_command` on a disallowed exit code:
`subprocess.CalledProcessError(ret, "snapraid-btrfs " + command)`. -/
structure CalledProcessError where
  returncode : Int
  cmd : String
deriving DecidableEq, Repr

/-- The test `ret == 0 or ret in allow_statuscodes` (line 105 of the source). -/
def exitAllowed (ret : Int) (allow : List Int) : Bool :=
  ret == 0 || allow.contains ret

/-- The `for (k, v) in args.items(): arguments.extend(["--" + k, str(v)])`
loops (lines 78-79 and 84-85): each key/value pair becomes a `--key value`
pair of argv entries, in insertion order.  Values are already rendered as
strings in the embedding. -/
def flagList (args : List (String × String)) : List String :=
  (args.map (fun kv => ["--" ++ kv.1, kv.2])).flatten

/-- The list `snapraid_btrfs_arguments` (lines 72-79): the fixed prefix of global
flags, then the caller-supplied snapraid-btrfs flags in insertion order. -/
def snapraidBtrfsArguments (cfg : Config) (bArgs : List (String × String)) :
    List String :=
  ["--quiet",
   "--conf", cfg.sbConf,
   "--snapper-path", cfg.snapperExec,
   "--snapraid-path", cfg.snapraidExec] ++ flagList bArgs

/-- The list `snapraid_arguments` (lines 80-85): empty for the `cleanup` command,
otherwise `["--quiet"]`; then the caller-supplied snapraid flags. -/
def snapraidArguments (command : String) (sArgs : List (String × String)) :
    List String :=
  (if command == "cleanup" then [] else ["--quiet"]) ++ flagList sArgs

/-- The full argument vector passed to `subprocess.Popen` (line 87):
executable, snapraid-btrfs arguments, command name, snapraid arguments. -/
def commandArgv (cfg : Config) (command : String)
    (bArgs sArgs : List (String × String)) : List String :=
  [cfg.sbExec] ++ snapraidBtrfsArguments cfg bArgs ++ [command] ++
    snapraidArguments command sArgs

/-- Exit-code classification of `snapraid_btrfs_command` (lines 105-108):
exit code 0 or a member of `allow_statuscodes` returns the captured stdout
lines; any other code raises `CalledProcessError` carrying the exit code and
the command name. -/
def commandOutcome (command : String) (allow : List Int)
    (child : ProcessResult) : Except CalledProcessError (List String) :=
  if exitAllowed child.exitCode allow then
    Except.ok child.stdoutLines
  else
    Except.error ⟨child.exitCode, "snapraid-btrfs " ++ command⟩

/-! ## Diff classifier -/

/-- The token `line.split(" ")[0]` (line 362): the prefix of the line up to (not
including) the first space character.  A line with no space is its own
token; a line starting with a space, or an empty line, yields the empty
token. -/
def splitFirst (line : String) : String :=
  String.mk (line.data.takeWhile (fun c => c ≠ ' '))

/-- The count the `Counter` of line 362 assigns to a kind: the number of
input lines whose leading space-delimited token equals the kind. -/
def kindCount (lines : List String) (k : String) : Nat :=
  lines.countP (fun l => splitFirst l == k)

/-- The mapping `diff_results` (lines 362-364): the `Counter` over leading tokens,
restricted to exactly the four keys `add`, `remove`, `move`, `update`
(absent kinds default to 0; other tokens are dropped by the restriction). -/
def diffClassify (lines : List String) : List (String × Nat) :=
  ["add", "remove", "move", "update"].map (fun k => (k, kindCount lines k))

/-- Modelled from the spec: the count the specification attributes to a
kind, based on the leading *whitespace*-delimited token of each line
(leading whitespace skipped, token ends at the next whitespace character),
for comparison with the source's space-based `splitFirst`. -/
def whitespaceFirstToken (line : String) : String :=
  String.mk
    ((line.data.dropWhile (fun c => c.isWhitespace)).takeWhile
      (fun c => ¬ c.isWhitespace))

/-- Modelled from the spec: count of lines whose leading
whitespace-delimited token equals the kind. -/
def specKindCount (lines : List String) (k : String) : Nat :=
  lines.countP (fun l => whitespaceFirstToken l == k)

/-! ## Stream tees -/

/-- Python's `str.rstrip()` applied by the tee before logging
(`logging.log(log_level, line.rstrip())`, line 32). -/
def pyRstrip (s : String) : String :=
  String.mk (s.data.reverse.dropWhile (fun c => c.isWhitespace) |>.reverse)

/-- The sequence of log-sink entries one tee produces from its stream
(line 31-33): each line logged at the tee's level, trailing whitespace
stripped. -/
def teeEntries (level : LogLevel) (lines : List String) :
    List (LogLevel × String) :=
  lines.map (fun l => (level, pyRstrip l))

/-- The accumulator built by the tee's `out_lines.append(line)` loop
(line 33): lines appended one at a time, in stream order. -/
def teeAccumulate (lines : List String) : List String :=
  lines.foldl (fun acc l => acc ++ [l]) []

/-- A merge of the two tees' log-sink entries under an arbitrary
interleaving schedule: `true` picks the next entry of the first stream,
`false` the next entry of the second; an exhausted stream's turns fall to
the other; when the schedule runs out the remaining entries are flushed
first-stream first. -/
def interleave (s : List Bool) (xs ys : List (LogLevel × String)) :
    List (LogLevel × String) :=
  match s, xs, ys with
  | [], xs, ys => xs ++ ys
  | true :: s, x :: xs, ys => x :: interleave s xs ys
  | true :: s, [], ys => interleave s [] ys
  | false :: s, xs, y :: ys => y :: interleave s xs ys
  | false :: s, xs, [] => interleave s xs []

/-- Everything the log sink receives from one command invocation, for a
given interleaving schedule of the two concurrent tees: stdout lines at
level OUTPUT, stderr lines at level OUTERR (lines 97-99). -/
def sinkOf (schedule : List Bool) (child : ProcessResult) :
    List (LogLevel × String) :=
  interleave schedule (teeEntries LogLevel.OUTPUT child.stdoutLines)
    (teeEntries LogLevel.OUTERR child.stderrLines)

/-- One full `snapraid_btrfs_command` invocation: the log-sink entries
produced by both tees (joined — lines 100-101 — before the exit status is
read on line 102) and the classified outcome. -/
structure ExecResult where
  sink : List (LogLevel × String)
  result : Except CalledProcessError (List String)
deriving Repr

/-- The call `snapraid_btrfs_command` (lines 67-108) as observed for one child
behavior and one tee-interleaving schedule: both tees are drained to
end-of-stream and joined, then the exit code is read and classified; the
accumulator of the stdout tee is what a successful call returns. -/
def executeModel (command : String) (allow : List Int)
    (child : ProcessResult) (schedule : List Bool) : ExecResult :=
  { sink := sinkOf schedule child
    result := commandOutcome command allow
      { child with stdoutLines := teeAccumulate child.stdoutLines } }

/-! ## Python `int()` parsing (for the scrub plan) -/

/-- Continue parsing an ASCII digit string after at least one digit has been
seen, allowing single underscores between digits (Python's integer-literal
grammar, as accepted by `int(str)`). -/
def pyDigitsRest (acc : Nat) : List Char → Option Nat
  | [] => some acc
  | '_' :: rest =>
    match rest with
    | c :: rs =>
      if c.isDigit then pyDigitsRest (acc * 10 + (c.toNat - 48)) rs else none
    | [] => none
  | c :: rest =>
    if c.isDigit then pyDigitsRest (acc * 10 + (c.toNat - 48)) rest else none

/-- Parse a non-empty digit string (underscore-separated groups allowed,
no leading underscore). -/
def pyParseNat : List Char → Option Nat
  | c :: rest =>
    if c.isDigit then pyDigitsRest (c.toNat - 48) rest else none
  | [] => none

/-- Python `str.strip()` on a character list: whitespace removed from both
ends. -/
def pyStripChars (l : List Char) : List Char :=
  ((l.dropWhile (fun c => c.isWhitespace)).reverse.dropWhile
    (fun c => c.isWhitespace)).reverse

/-- Python's `int(s)` on a string (line 414 applies it to the scrub plan):
surrounding whitespace stripped, optional sign, then a non-empty digit
string; returns `none` where Python raises `ValueError` (e.g. on symbolic
plans such as `"full"`). -/
def pyParseInt (s : String) : Option Int :=
  match pyStripChars s.data with
  | '+' :: rest => (pyParseNat rest).map (fun n => (n : Int))
  | '-' :: rest => (pyParseNat rest).map (fun n => -(n : Int))
  | l => (pyParseNat l).map (fun n => (n : Int))

/-! ## Email truncation, Discord payload, finish -/

/-- Python character-count `len` (the log is text; `len(log)`). -/
def pyLen (s : String) : Nat := s.data.length

/-- Python `log[:n]` for `0 ≤ n`. -/
def pyTake (s : String) (n : Nat) : String := String.mk (s.data.take n)

/-- Python `log[-n:]` for `0 < n ≤ len(log)`: the last `n` characters. -/
def pyTakeEnd (s : String) (n : Nat) : String :=
  String.mk (s.data.drop (s.data.length - n))

/-- Python `log.count("\n", a, b)` for `0 ≤ a ≤ b`: newlines in
`log[a:b]`. -/
def pyCountNl (s : String) (a b : Nat) : Nat :=
  ((s.data.drop a).take (b - a)).count '\n'

/-- The log-shortening of `send_email` (lines 127-137): with
`maxsize = maxsizeKiB * 1024`, a log longer than `maxsize` characters is
replaced by a note, the first `maxsize // 2` characters, a marker reporting
the number of lines removed from the omitted middle, and the last
`maxsize // 2` characters; otherwise (including when the budget is 0,
which Python treats as falsy) the log is passed through unchanged. -/
def truncatedEmailLog (maxsizeKiB : Nat) (log : String) : String :=
  let maxsize := maxsizeKiB * 1024
  if maxsize ≠ 0 ∧ pyLen log > maxsize then
    let cutLines := pyCountNl log (maxsize / 2) (pyLen log - maxsize / 2)
    "NOTE: Log was too big for email and was shortened\n\n" ++
      pyTake log (maxsize / 2) ++
      ("[...]\n\n\n --- LOG WAS TOO BIG - " ++ toString cutLines ++
        " LINES REMOVED --\n\n\n[...]") ++
      pyTakeEnd log (maxsize / 2)
  else log

/-- The email body built by `send_email` (lines 122-137): a fixed
success/error preamble followed by the (possibly shortened) log. -/
def emailBody (success : Bool) (maxsizeKiB : Nat) (log : String) : String :=
  (if success then "SnapRAID job completed successfully:\n\n\n"
   else "Error during SnapRAID job:\n\n\n") ++
    truncatedEmailLog maxsizeKiB log

/-- The JSON payload fields of `send_discord_notification` (lines 43-52). -/
structure DiscordPayload where
  content : String
  description : String
  color : Nat
deriving DecidableEq, Repr

/-- The function `send_discord_notification(success, log)` (lines 42-52): the embed
description is exactly the `log` argument it is given. -/
def discordPayload (success : Bool) (log : String) : DiscordPayload :=
  { content :=
      if success then "SnapRAID job completed successfully."
      else "Error during SnapRAID job:"
    description := log
    color := if success then 65280 else 16711680 }

/-- Does `sub` occur at the head of `hay`? (empty `sub` always does). -/
def charsStartWith : List Char → List Char → Bool
  | _, [] => true
  | [], _ :: _ => false
  | a :: as, b :: bs => (a == b) && charsStartWith as bs

/-- Does `sub` occur anywhere in `hay`? -/
def charsContain : List Char → List Char → Bool
  | [], sub => charsStartWith [] sub
  | h :: t, sub => charsStartWith (h :: t) sub || charsContain t sub

/-- Python's substring test `needle in hay` on strings, used by `finish`
for the `sendon` checks. -/
def strContains (hay needle : String) : Bool :=
  charsContain hay.data needle.data

/-- The key `("error", "success")[is_success]` (lines 163 and 170). -/
def sendonKey (success : Bool) : String :=
  if success then "success" else "error"

/-- The notification-related configuration `finish` reads. -/
structure NotifyConfig where
  emailSendon : String
  emailMaxsizeKiB : Nat
  smtpHost : String
  discordEnabled : Bool
  discordSendon : String
deriving Repr

/-- The observable outcome of `finish` (lines 162-180): which notifications
were delivered (with their content) and the process exit code. -/
structure FinishResult where
  emailSent : Option String
  discordSent : Option DiscordPayload
  exitCode : Nat
deriving Repr

/-- The function `finish(is_success)` (lines 162-180): the email is attempted when the
outcome's key occurs in `email.sendon` (and silently skipped when the smtp
host is empty, line 116-118); the Discord notification is attempted when
discord is enabled and the key occurs in `discord.sendon`, and receives
`email_log.getvalue()` — the untruncated accumulated log.  A notifier that
raises (`emailRaises` / `discordRaises`) is caught and logged (lines
164-167, 171-174) and delivers nothing.  The process then exits 0 on
success and 1 on failure (line 180), regardless of notifier failures. -/
def finishModel (cfg : NotifyConfig) (success : Bool) (log : String)
    (emailRaises discordRaises : Bool) : FinishResult :=
  { emailSent :=
      if strContains cfg.emailSendon (sendonKey success) then
        if emailRaises then none
        else if cfg.smtpHost.length == 0 then none
        else some (emailBody success cfg.emailMaxsizeKiB log)
      else none
    discordSent :=
      if cfg.discordEnabled && strContains cfg.discordSendon (sendonKey success) then
        if discordRaises then none
        else some (discordPayload success log)
      else none
    exitCode := if success then 0 else 1 }

/-! ## The `run()` state machine -/

/-- One `snapraid_btrfs_command` call as issued by `run()`: the command name
and the two argument maps (as insertion-ordered association lists). -/
structure Invocation where
  command : String
  snapraidArgs : List (String × String)
  snapraidBtrfsArgs : List (String × String)
deriving DecidableEq, Repr

/-- The externally observable events of one run, each matching a logging
call or command invocation in `run()`:
`preflightFail` one of the four preflight checks failed (lines 327-343);
`invoked inv ok` a command was spawned and its exit code classified;
`thresholdAbort` the delete-threshold abort message (lines 370-374);
`syncSkipped` the "No changes detected" message (line 378);
`warnOlderThanIgnored` the older-than warning (lines 420-422). -/
inductive Event where
  | preflightFail : Event
  | invoked (inv : Invocation) (ok : Bool) : Event
  | thresholdAbort : Event
  | syncSkipped : Event
  | warnOlderThanIgnored : Event
deriving DecidableEq, Repr

/-- The map `snapraid_btrfs_args_extend` as initialized on lines 345-351:
`snapper-configs` then `snapper-configs-file`, each only when the
configured value is non-empty. -/
def initialExtend (cfg : Config) : List (String × String) :=
  (if cfg.snapperConfigs.length > 0 then
    [("snapper-configs", cfg.snapperConfigs)] else []) ++
  (if cfg.snapperConfigsFile.length > 0 then
    [("snapper-configs-file", cfg.snapperConfigsFile)] else [])

/-- The map `snapraid_args_extend` for the scrub step (lines 412-427): a numeric
plan passes both `plan` and `older-than`; a symbolic plan passes only
`plan`. -/
def scrubSnapraidArgs (cfg : Config) : List (String × String) :=
  match pyParseInt cfg.scrubPlan with
  | some _ => [("plan", cfg.scrubPlan),
               ("older-than", toString cfg.scrubOlderThan)]
  | none => [("plan", cfg.scrubPlan)]

/-- Whether the scrub step logs the older-than warning (lines 419-422):
only for a symbolic plan, and only when `older-than` is positive. -/
def scrubWarns (cfg : Config) : Bool :=
  match pyParseInt cfg.scrubPlan with
  | some _ => false
  | none => cfg.scrubOlderThan > 0

/-- The scrub step (lines 410-433): when enabled, possibly warn, then run
`scrub` with the computed snapraid args; a failure is caught and aborts. -/
def scrubStep (cfg : Config) (w : World) (ext : List (String × String)) :
    List Event × Bool :=
  if cfg.scrubEnabled then
    if exitAllowed w.scrubRes.exitCode [] then
      ((if scrubWarns cfg then [Event.warnOlderThanIgnored] else []) ++
        [Event.invoked ⟨"scrub", scrubSnapraidArgs cfg, ext⟩ true], true)
    else
      ((if scrubWarns cfg then [Event.warnOlderThanIgnored] else []) ++
        [Event.invoked ⟨"scrub", scrubSnapraidArgs cfg, ext⟩ false], false)
  else ([], true)

/-- The cleanup step (lines 401-408): when enabled, run `cleanup`; a
failure is caught and aborts, otherwise the scrub step follows. -/
def cleanupStep (cfg : Config) (w : World) (ext : List (String × String)) :
    List Event × Bool :=
  if cfg.cleanup then
    if exitAllowed w.cleanupRes.exitCode [] then
      (Event.invoked ⟨"cleanup", [], ext⟩ true :: (scrubStep cfg w ext).1,
        (scrubStep cfg w ext).2)
    else ([Event.invoked ⟨"cleanup", [], ext⟩ false], false)
  else scrubStep cfg w ext

/-- The pool step (lines 389-398): when enabled, a configured non-empty
`pool-dir` is first appended to the *shared* `snapraid_btrfs_args_extend`
map (line 392), which all later steps keep using; then `pool` runs; a
failure is caught and aborts, otherwise the cleanup step follows with the
mutated map. -/
def poolStep (cfg : Config) (w : World) (ext : List (String × String)) :
    List Event × Bool :=
  if cfg.pool then
    let ext2 := if cfg.poolDir.length > 0 then
      ext ++ [("pool-dir", cfg.poolDir)] else ext
    if exitAllowed w.poolRes.exitCode [] then
      (Event.invoked ⟨"pool", [], ext2⟩ true :: (cleanupStep cfg w ext2).1,
        (cleanupStep cfg w ext2).2)
    else ([Event.invoked ⟨"pool", [], ext2⟩ false], false)
  else cleanupStep cfg w ext

/-- The sync step (lines 376-386): when all four diff counts are zero,
sync is skipped without failing; otherwise `sync` runs, a failure is
caught and aborts.  Either way the pool step follows on the non-failure
paths. -/
def syncStep (cfg : Config) (w : World) (ext : List (String × String))
    (dr : String → Nat) : List Event × Bool :=
  if dr "remove" + dr "add" + dr "move" + dr "update" == 0 then
    (Event.syncSkipped :: (poolStep cfg w ext).1, (poolStep cfg w ext).2)
  else
    if exitAllowed w.syncRes.exitCode [] then
      (Event.invoked ⟨"sync", [], ext⟩ true :: (poolStep cfg w ext).1,
        (poolStep cfg w ext).2)
    else ([Event.invoked ⟨"sync", [], ext⟩ false], false)

/-- The threshold check (lines 368-374): abort with a failure outcome when
the configured delete threshold is non-negative and the removed-count
strictly exceeds it; otherwise continue with the sync step. -/
def thresholdStep (cfg : Config) (w : World) (ext : List (String × String))
    (dr : String → Nat) : List Event × Bool :=
  if cfg.deletethreshold ≥ 0 ∧ (dr "remove" : Int) > cfg.deletethreshold then
    ([Event.thresholdAbort], false)
  else syncStep cfg w ext dr

/-- The diff step (lines 358-366): `diff` always runs with exit code 2
additionally allowed; a disallowed exit code escapes to the top-level
handler and the run fails; otherwise its stdout is classified and the
threshold check follows. -/
def diffStep (cfg : Config) (w : World) (ext : List (String × String)) :
    List Event × Bool :=
  if exitAllowed w.diffRes.exitCode [2] then
    (Event.invoked ⟨"diff", [], ext⟩ true ::
        (thresholdStep cfg w ext (kindCount w.diffRes.stdoutLines)).1,
      (thresholdStep cfg w ext (kindCount w.diffRes.stdoutLines)).2)
  else ([Event.invoked ⟨"diff", [], ext⟩ false], false)

/-- The touch step (lines 353-356): when enabled, `touch` runs; its failure
is not caught locally but escapes to the top-level handler, which also
ends the run with a failure outcome. -/
def touchStep (cfg : Config) (w : World) (ext : List (String × String)) :
    List Event × Bool :=
  if cfg.touch then
    if exitAllowed w.touchRes.exitCode [] then
      (Event.invoked ⟨"touch", [], ext⟩ true :: (diffStep cfg w ext).1,
        (diffStep cfg w ext).2)
    else ([Event.invoked ⟨"touch", [], ext⟩ false], false)
  else diffStep cfg w ext

/-- The four preflight checks of lines 327-343. -/
def preflightOk (w : World) : Bool :=
  w.snapraidExecFound && w.snapraidConfExists && w.sbExecFound &&
    w.snapperExecFound

/-- The function `run()` (lines 322-436) as a function from configuration and external
world to the list of observable events and the final success flag handed
to `finish`. -/
def runMachine (cfg : Config) (w : World) : List Event × Bool :=
  if preflightOk w then touchStep cfg w (initialExtend cfg)
  else ([Event.preflightFail], false)

/-- The sequence of command names spawned during a run, in order. -/
def invokedCommands (evs : List Event) : List String :=
  evs.filterMap (fun e =>
    match e with
    | Event.invoked inv _ => some inv.command
    | _ => none)

/-! ## Helper lemmas -/

theorem exitAllowed_iff (ret : Int) (allow : List Int) :
    exitAllowed ret allow = true ↔ ret = 0 ∨ ret ∈ allow := by
  simp [exitAllowed]

theorem interleave_length (s : List Bool) (xs ys : List (LogLevel × String)) :
    (interleave s xs ys).length = xs.length + ys.length := by
  induction s generalizing xs ys with
  | nil => simp [interleave]
  | cons b s ih =>
    cases b <;> cases xs <;> cases ys <;> simp [interleave, ih] <;> omega

theorem interleave_filter_pos (p : LogLevel × String → Bool) (s : List Bool)
    (xs ys : List (LogLevel × String)) (hx : ∀ x ∈ xs, p x = true)
    (hy : ∀ y ∈ ys, p y = false) : (interleave s xs ys).filter p = xs := by
  induction s generalizing xs ys with
  | nil =>
    simp only [interleave, List.filter_append]
    rw [List.filter_eq_self.mpr hx, List.filter_eq_nil_iff.mpr (by simpa using hy),
      List.append_nil]
  | cons b s ih =>
    cases b with
    | true =>
      cases xs with
      | nil => simpa [interleave] using ih [] ys (by simp) hy
      | cons x xs =>
        have hpx : p x = true := hx x (by simp)
        simp only [interleave, List.filter_cons, hpx, if_true]
        rw [ih xs ys (fun a ha => hx a (by simp [ha])) hy]
    | false =>
      cases ys with
      | nil => simpa [interleave] using ih xs [] hx (by simp)
      | cons y ys =>
        have hpy : p y = false := hy y (by simp)
        simp only [interleave, List.filter_cons, hpy]
        simp only [Bool.false_eq_true, if_false]
        exact ih xs ys hx (fun a ha => hy a (by simp [ha]))

theorem interleave_filter_neg (p : LogLevel × String → Bool) (s : List Bool)
    (xs ys : List (LogLevel × String)) (hx : ∀ x ∈ xs, p x = false)
    (hy : ∀ y ∈ ys, p y = true) : (interleave s xs ys).filter p = ys := by
  induction s generalizing xs ys with
  | nil =>
    simp only [interleave, List.filter_append]
    rw [List.filter_eq_nil_iff.mpr (by simpa using hx), List.filter_eq_self.mpr hy,
      List.nil_append]
  | cons b s ih =>
    cases b with
    | true =>
      cases xs with
      | nil => simpa [interleave] using ih [] ys (by simp) hy
      | cons x xs =>
        have hpx : p x = false := hx x (by simp)
        simp only [interleave, List.filter_cons, hpx]
        simp only [Bool.false_eq_true, if_false]
        exact ih xs ys (fun a ha => hx a (by simp [ha])) hy
    | false =>
      cases ys with
      | nil => simpa [interleave] using ih xs [] hx (by simp)
      | cons y ys =>
        have hpy : p y = true := hy y (by simp)
        simp only [interleave, List.filter_cons, hpy, if_true]
        rw [ih xs ys hx (fun a ha => hy a (by simp [ha]))]

theorem teeAccumulate_eq (lines : List String) :
    teeAccumulate lines = lines := by
  have h : ∀ acc : List String,
      lines.foldl (fun acc l => acc ++ [l]) acc = acc ++ lines := by
    induction lines with
    | nil => simp
    | cons l ls ih => intro acc; simp [List.foldl_cons, ih]
  simpa [teeAccumulate] using h []

/-! ## Claim theorems -/

/-- C1: for every command invocation and every `allow_statuscodes` set, an
exit code of 0 or a member of the set yields success with the captured
stdout lines unchanged, and any other exit code raises an error recording
the failing command name (`"snapraid-btrfs " ++ command`) and that exact
exit code. -/
theorem C1_exit_code_classification (command : String) (allow : List Int)
    (child : ProcessResult) :
    (child.exitCode = 0 ∨ child.exitCode ∈ allow →
      commandOutcome command allow child = Except.ok child.stdoutLines) ∧
    (child.exitCode ≠ 0 ∧ child.exitCode ∉ allow →
      commandOutcome command allow child =
        Except.error ⟨child.exitCode, "snapraid-btrfs " ++ command⟩) := by
  constructor
  · intro h
    have : exitAllowed child.exitCode allow = true :=
      (exitAllowed_iff _ _).mpr h
    simp [commandOutcome, this]
  · rintro ⟨h0, hm⟩
    have : exitAllowed child.exitCode allow = false := by
      rcases hb : exitAllowed child.exitCode allow with _ | _
      · rfl
      · rcases (exitAllowed_iff _ _).mp hb with h | h
        · exact absurd h h0
        · exact absurd h hm
    simp [commandOutcome, this]

theorem C1_exit_code_classification_witness :
    commandOutcome "diff" [2] ⟨2, ["add x"], []⟩ = Except.ok ["add x"] ∧
    commandOutcome "sync" [] ⟨1, [], []⟩ =
      Except.error ⟨1, "snapraid-btrfs sync"⟩ :=
  ⟨(C1_exit_code_classification "diff" [2] ⟨2, ["add x"], []⟩).1
      (Or.inr (by decide)),
   (C1_exit_code_classification "sync" [] ⟨1, [], []⟩).2
      (by constructor <;> decide)⟩

/-- C7: the argument vector is built deterministically: the executable,
then the fixed flag prefix (global quiet flag, config path, snapshot-manager
path, parity-tool path), then the caller-supplied snapraid-btrfs flags in
insertion order, then the command name, then the per-command flags (the
default quiet flag — absent exactly for `cleanup` — followed by the
caller-supplied snapraid flags in insertion order). -/
theorem C7_argv_order (cfg : Config) (command : String)
    (bArgs sArgs : List (String × String)) :
    commandArgv cfg command bArgs sArgs =
      [cfg.sbExec, "--quiet", "--conf", cfg.sbConf,
        "--snapper-path", cfg.snapperExec,
        "--snapraid-path", cfg.snapraidExec] ++
        flagList bArgs ++ [command] ++
        (if command == "cleanup" then [] else ["--quiet"]) ++
        flagList sArgs ∧
    commandArgv cfg "cleanup" bArgs sArgs =
      [cfg.sbExec, "--quiet", "--conf", cfg.sbConf,
        "--snapper-path", cfg.snapperExec,
        "--snapraid-path", cfg.snapraidExec] ++
        flagList bArgs ++ ["cleanup"] ++ flagList sArgs ∧
    (∀ k v rest, flagList ((k, v) :: rest) =
      ("--" ++ k) :: v :: flagList rest) := by
  refine ⟨?_, ?_, ?_⟩
  · simp [commandArgv, snapraidBtrfsArguments, snapraidArguments]
  · simp [commandArgv, snapraidBtrfsArguments, snapraidArguments]
  · intro k v rest; simp [flagList]

/-- C8: a notifier failure during `finish` is caught and never escalated:
the exit code is independent of whether either notifier raises, and is
always 0 on success and 1 on failure. -/
theorem C8_finish_exit_code (cfg : NotifyConfig) (success : Bool)
    (log : String) (e1 d1 e2 d2 : Bool) :
    (finishModel cfg success log e1 d1).exitCode =
      (if success then 0 else 1) ∧
    (finishModel cfg success log e1 d1).exitCode =
      (finishModel cfg success log e2 d2).exitCode := by
  simp [finishModel]

/-- C9: for every interleaving schedule of the two tees and every child
emitting N stdout and M stderr lines, the log sink receives exactly N+M
entries, the OUTPUT-levelled subsequence is exactly the stdout tee's
entries (each exactly once, in stream order), the OUTERR-levelled
subsequence is exactly the stderr tee's entries, the accumulator holds
exactly the stdout lines in order, and the outcome — classified only after
both tees are drained — is computed from those accumulated stdout lines. -/
theorem C9_stream_tee (schedule : List Bool) (command : String)
    (allow : List Int) (child : ProcessResult) :
    (sinkOf schedule child).length =
      child.stdoutLines.length + child.stderrLines.length ∧
    (sinkOf schedule child).filter (fun e => e.1 == LogLevel.OUTPUT) =
      teeEntries LogLevel.OUTPUT child.stdoutLines ∧
    (sinkOf schedule child).filter (fun e => e.1 == LogLevel.OUTERR) =
      teeEntries LogLevel.OUTERR child.stderrLines ∧
    teeAccumulate child.stdoutLines = child.stdoutLines ∧
    (executeModel command allow child schedule).sink = sinkOf schedule child ∧
    (executeModel command allow child schedule).result =
      commandOutcome command allow child := by
  refine ⟨?_, ?_, ?_, teeAccumulate_eq _, rfl, ?_⟩
  · simp [sinkOf, interleave_length, teeEntries]
  · exact interleave_filter_pos _ schedule _ _
      (by intro x hx; simp [teeEntries] at hx; rcases hx with ⟨l, _, h⟩
          simp [← h])
      (by intro y hy; simp [teeEntries] at hy; rcases hy with ⟨l, _, h⟩
          simp [← h])
  · exact interleave_filter_neg _ schedule _ _
      (by intro x hx; simp [teeEntries] at hx; rcases hx with ⟨l, _, h⟩
          simp [← h])
      (by intro y hy; simp [teeEntries] at hy; rcases hy with ⟨l, _, h⟩
          simp [← h])
  · simp [executeModel, commandOutcome, teeAccumulate_eq]

theorem kindCount_sum_le (lines : List String) :
    kindCount lines "add" + kindCount lines "remove" +
      kindCount lines "move" + kindCount lines "update" ≤ lines.length := by
  induction lines with
  | nil => simp [kindCount]
  | cons l ls ih =>
    simp only [kindCount, List.countP_cons, List.length_cons] at *
    by_cases hA : splitFirst l = "add" <;>
      by_cases hR : splitFirst l = "remove" <;>
        by_cases hM : splitFirst l = "move" <;>
          by_cases hU : splitFirst l = "update" <;>
            simp_all <;> omega

/-- C3 counterexample: on the single line `"add\tx"` (a tab after the
kind), the code counts by the leading *space*-delimited token — the whole
line, which is not a recognized kind, so `add` counts 0 — while the claim's
leading *whitespace*-delimited token is `add`, which would count 1. -/
theorem C3_classifier_counterexample :
    kindCount ["add\tx"] "add" = 0 ∧
    specKindCount ["add\tx"] "add" = 1 ∧
    kindCount ["add\tx"] "add" ≠ specKindCount ["add\tx"] "add" := by
  decide

/-- C3 (amended): `diffClassify` is total and deterministic and returns a
mapping with exactly the four keys add, remove, move, update; each count is
non-negative (a `Nat`); the count for a kind equals the number of lines
whose leading *space*-delimited token (the prefix of the line before its
first space character) equals that kind, so absent kinds default to 0 and
unrecognized leading tokens are silently ignored; and the sum of the four
counts is at most the number of input lines. -/
theorem C3_classifier_amended (lines : List String) :
    (diffClassify lines).map Prod.fst = ["add", "remove", "move", "update"] ∧
    (∀ k n, (k, n) ∈ diffClassify lines → n = kindCount lines k) ∧
    kindCount lines "add" + kindCount lines "remove" +
      kindCount lines "move" + kindCount lines "update" ≤ lines.length := by
  refine ⟨?_, ?_, kindCount_sum_le lines⟩
  · simp [diffClassify]
  · intro k n hmem
    simp only [diffClassify, List.mem_map, List.mem_cons,
      List.not_mem_nil] at hmem
    rcases hmem with ⟨a, ha, heq⟩
    rcases ha with h | h | h | h | h <;> first
      | (subst h; simp only [Prod.mk.injEq] at heq;
         rcases heq with ⟨hk, hn⟩; rw [← hk, ← hn])
      | simp at h

theorem C3_classifier_amended_witness :
    (1 : Nat) = kindCount ["add x", "remove y"] "add" :=
  (C3_classifier_amended ["add x", "remove y"]).2.1 "add" 1 (by decide)

/-- C6 counterexample: with a 1 KiB email budget, a run whose accumulated
log is 1030 'a' characters, and both notifiers configured to fire, the
Discord webhook receives the *untruncated* log (the `description` field is
exactly `email_log.getvalue()`), while the email's shortened log differs
from it — so the claim that *both* notifiers receive the truncated log is
false. -/
theorem C6_notifier_log_counterexample :
    ((finishModel ⟨"success", 1, "mail", true, "success"⟩ true
        (String.mk (List.replicate 1030 'a')) false false).discordSent.map
      (fun p => p.description)) =
      some (String.mk (List.replicate 1030 'a')) ∧
    truncatedEmailLog 1 (String.mk (List.replicate 1030 'a')) ≠
      String.mk (List.replicate 1030 'a') := by
  constructor
  · decide
  · decide

/-- C6 (amended): for every run outcome with both notifiers due to fire
and neither raising, the *email* notifier receives the accumulated log
truncated at the configurable byte budget — a note, the first half-budget
characters, a marker reporting the number of omitted lines, and the last
half-budget characters — while the *webhook* notifier receives the full
untruncated accumulated log; both receive the success flag (in the
subject/preamble and in the content/color respectively). -/
theorem C6_notifier_logs_amended (cfg : NotifyConfig) (success : Bool)
    (log : String)
    (he : strContains cfg.emailSendon (sendonKey success) = true)
    (hhost : cfg.smtpHost.length ≠ 0)
    (hd : cfg.discordEnabled = true)
    (hds : strContains cfg.discordSendon (sendonKey success) = true) :
    (finishModel cfg success log false false).emailSent =
      some (emailBody success cfg.emailMaxsizeKiB log) ∧
    (finishModel cfg success log false false).discordSent =
      some (discordPayload success log) ∧
    (discordPayload success log).description = log ∧
    (0 < cfg.emailMaxsizeKiB → pyLen log > cfg.emailMaxsizeKiB * 1024 →
      truncatedEmailLog cfg.emailMaxsizeKiB log =
        "NOTE: Log was too big for email and was shortened\n\n" ++
          pyTake log (cfg.emailMaxsizeKiB * 1024 / 2) ++
          ("[...]\n\n\n --- LOG WAS TOO BIG - " ++
            toString (pyCountNl log (cfg.emailMaxsizeKiB * 1024 / 2)
              (pyLen log - cfg.emailMaxsizeKiB * 1024 / 2)) ++
            " LINES REMOVED --\n\n\n[...]") ++
          pyTakeEnd log (cfg.emailMaxsizeKiB * 1024 / 2)) := by
  refine ⟨?_, ?_, rfl, ?_⟩
  · simp only [finishModel, he, if_true]
    have : (cfg.smtpHost.length == 0) = false := by
      simpa using hhost
    simp [this]
  · simp [finishModel, hd, hds]
  · intro hpos hbig
    have hne : cfg.emailMaxsizeKiB * 1024 ≠ 0 := by positivity
    simp only [truncatedEmailLog, if_pos (And.intro hne hbig)]

theorem C6_notifier_logs_amended_witness :
    (finishModel ⟨"success", 1, "mail", true, "success"⟩ true
        (String.mk (List.replicate 1030 'a')) false false).discordSent =
      some (discordPayload true (String.mk (List.replicate 1030 'a'))) :=
  (C6_notifier_logs_amended ⟨"success", 1, "mail", true, "success"⟩ true
    (String.mk (List.replicate 1030 'a')) (by decide) (by decide) rfl
    (by decide)).2.1

theorem thresholdAbort_not_mem_scrubStep (cfg : Config) (w : World)
    (ext : List (String × String)) :
    Event.thresholdAbort ∉ (scrubStep cfg w ext).1 := by
  unfold scrubStep
  split_ifs <;> simp

theorem thresholdAbort_not_mem_cleanupStep (cfg : Config) (w : World)
    (ext : List (String × String)) :
    Event.thresholdAbort ∉ (cleanupStep cfg w ext).1 := by
  unfold cleanupStep
  split_ifs <;> simp [thresholdAbort_not_mem_scrubStep]

theorem thresholdAbort_not_mem_poolStep (cfg : Config) (w : World)
    (ext : List (String × String)) :
    Event.thresholdAbort ∉ (poolStep cfg w ext).1 := by
  unfold poolStep
  split_ifs <;> simp [thresholdAbort_not_mem_cleanupStep]

theorem thresholdAbort_not_mem_syncStep (cfg : Config) (w : World)
    (ext : List (String × String)) (dr : String → Nat) :
    Event.thresholdAbort ∉ (syncStep cfg w ext dr).1 := by
  unfold syncStep
  split_ifs <;> simp [thresholdAbort_not_mem_poolStep]

theorem invokedCommands_append (a b : List Event) :
    invokedCommands (a ++ b) = invokedCommands a ++ invokedCommands b := by
  simp [invokedCommands]

theorem invokedCommands_scrubStep (cfg : Config) (w : World)
    (ext : List (String × String)) :
    invokedCommands (scrubStep cfg w ext).1 =
      if cfg.scrubEnabled then ["scrub"] else [] := by
  unfold scrubStep
  split_ifs <;> simp [invokedCommands]

theorem invokedCommands_cons_invoked (inv : Invocation) (ok : Bool)
    (evs : List Event) :
    invokedCommands (Event.invoked inv ok :: evs) =
      inv.command :: invokedCommands evs := by
  simp [invokedCommands]

theorem invokedCommands_cons_syncSkipped (evs : List Event) :
    invokedCommands (Event.syncSkipped :: evs) = invokedCommands evs := by
  simp [invokedCommands]

theorem invokedCommands_cleanupStep (cfg : Config) (w : World)
    (ext : List (String × String))
    (hc : cfg.cleanup = true → exitAllowed w.cleanupRes.exitCode [] = true) :
    invokedCommands (cleanupStep cfg w ext).1 =
      (if cfg.cleanup then ["cleanup"] else []) ++
        (if cfg.scrubEnabled then ["scrub"] else []) := by
  by_cases h : cfg.cleanup = true
  · simp [cleanupStep, h, hc h, invokedCommands_cons_invoked,
      invokedCommands_scrubStep]
  · have h' : cfg.cleanup = false := by simpa using h
    simp [cleanupStep, h', invokedCommands_scrubStep]

theorem invokedCommands_poolStep (cfg : Config) (w : World)
    (ext : List (String × String))
    (hp : cfg.pool = true → exitAllowed w.poolRes.exitCode [] = true)
    (hc : cfg.cleanup = true → exitAllowed w.cleanupRes.exitCode [] = true) :
    invokedCommands (poolStep cfg w ext).1 =
      (if cfg.pool then ["pool"] else []) ++
        (if cfg.cleanup then ["cleanup"] else []) ++
        (if cfg.scrubEnabled then ["scrub"] else []) := by
  by_cases h : cfg.pool = true
  · simp [poolStep, h, hp h, invokedCommands_cons_invoked,
      invokedCommands_cleanupStep _ _ _ hc]
  · have h' : cfg.pool = false := by simpa using h
    simp [poolStep, h', invokedCommands_cleanupStep _ _ _ hc]

theorem scrubStep_snd (cfg : Config) (w : World)
    (ext : List (String × String))
    (hs : cfg.scrubEnabled = true → exitAllowed w.scrubRes.exitCode [] = true) :
    (scrubStep cfg w ext).2 = true := by
  by_cases h : cfg.scrubEnabled = true
  · simp [scrubStep, h, hs h]
  · have h' : cfg.scrubEnabled = false := by simpa using h
    simp [scrubStep, h']

theorem cleanupStep_snd (cfg : Config) (w : World)
    (ext : List (String × String))
    (hc : cfg.cleanup = true → exitAllowed w.cleanupRes.exitCode [] = true)
    (hs : cfg.scrubEnabled = true → exitAllowed w.scrubRes.exitCode [] = true) :
    (cleanupStep cfg w ext).2 = true := by
  by_cases h : cfg.cleanup = true
  · simp [cleanupStep, h, hc h, scrubStep_snd _ _ _ hs]
  · have h' : cfg.cleanup = false := by simpa using h
    simp [cleanupStep, h', scrubStep_snd _ _ _ hs]

theorem poolStep_snd (cfg : Config) (w : World)
    (ext : List (String × String))
    (hp : cfg.pool = true → exitAllowed w.poolRes.exitCode [] = true)
    (hc : cfg.cleanup = true → exitAllowed w.cleanupRes.exitCode [] = true)
    (hs : cfg.scrubEnabled = true → exitAllowed w.scrubRes.exitCode [] = true) :
    (poolStep cfg w ext).2 = true := by
  by_cases h : cfg.pool = true
  · simp [poolStep, h, hp h, cleanupStep_snd _ _ _ hc hs]
  · have h' : cfg.pool = false := by simpa using h
    simp [poolStep, h', cleanupStep_snd _ _ _ hc hs]

theorem scrubStep_inv_args (cfg : Config) (w : World)
    (ext : List (String × String)) (inv : Invocation) (ok : Bool)
    (h : Event.invoked inv ok ∈ (scrubStep cfg w ext).1) :
    inv.snapraidBtrfsArgs = ext := by
  unfold scrubStep at h
  split_ifs at h <;> simp_all

theorem cleanupStep_inv_args (cfg : Config) (w : World)
    (ext : List (String × String)) (inv : Invocation) (ok : Bool)
    (h : Event.invoked inv ok ∈ (cleanupStep cfg w ext).1) :
    inv.snapraidBtrfsArgs = ext := by
  unfold cleanupStep at h
  split_ifs at h
  · simp only [List.mem_cons] at h
    rcases h with h | h
    · simp only [Event.invoked.injEq] at h
      rw [h.1]
    · exact scrubStep_inv_args cfg w ext inv ok h
  · simp_all
  · exact scrubStep_inv_args cfg w ext inv ok h

theorem runMachine_to_threshold (cfg : Config) (w : World)
    (hpf : preflightOk w = true)
    (ht : cfg.touch = true → exitAllowed w.touchRes.exitCode [] = true)
    (hd : exitAllowed w.diffRes.exitCode [2] = true) :
    (runMachine cfg w).1 =
      (if cfg.touch then
        [Event.invoked ⟨"touch", [], initialExtend cfg⟩ true] else []) ++
        Event.invoked ⟨"diff", [], initialExtend cfg⟩ true ::
          (thresholdStep cfg w (initialExtend cfg)
            (kindCount w.diffRes.stdoutLines)).1 ∧
    (runMachine cfg w).2 =
      (thresholdStep cfg w (initialExtend cfg)
        (kindCount w.diffRes.stdoutLines)).2 := by
  by_cases htch : cfg.touch = true
  · simp [runMachine, hpf, touchStep, htch, ht htch, diffStep, hd]
  · have h' : cfg.touch = false := by simpa using htch
    simp [runMachine, hpf, touchStep, h', diffStep, hd]

theorem thresholdStep_analysis (cfg : Config) (w : World)
    (ext : List (String × String)) (dr : String → Nat) :
    (Event.thresholdAbort ∈ (thresholdStep cfg w ext dr).1 ↔
      cfg.deletethreshold ≥ 0 ∧
        (dr "remove" : Int) > cfg.deletethreshold) ∧
    (cfg.deletethreshold ≥ 0 ∧ (dr "remove" : Int) > cfg.deletethreshold →
      (thresholdStep cfg w ext dr).2 = false ∧
      invokedCommands (thresholdStep cfg w ext dr).1 = []) := by
  by_cases hcond : cfg.deletethreshold ≥ 0 ∧
      (dr "remove" : Int) > cfg.deletethreshold
  · simp [thresholdStep, hcond, invokedCommands]
  · refine ⟨?_, fun h => absurd h hcond⟩
    unfold thresholdStep
    rw [if_neg hcond]
    exact ⟨fun h => absurd h (thresholdAbort_not_mem_syncStep cfg w ext dr),
      fun h => absurd h hcond⟩

/-- C2: with the preflight checks passing, touch (when enabled) and diff
succeeding, the run aborts on deletes (the threshold-abort event of lines
370-374) if and only if the configured delete threshold is non-negative
and the removed-count strictly exceeds it; a negative threshold never
aborts on deletes; and a threshold abort means the run fails and no sync
command is ever spawned. -/
theorem C2_delete_threshold_guard (cfg : Config) (w : World)
    (hpf : preflightOk w = true)
    (ht : cfg.touch = true → exitAllowed w.touchRes.exitCode [] = true)
    (hd : exitAllowed w.diffRes.exitCode [2] = true) :
    (Event.thresholdAbort ∈ (runMachine cfg w).1 ↔
      cfg.deletethreshold ≥ 0 ∧
        (kindCount w.diffRes.stdoutLines "remove" : Int) >
          cfg.deletethreshold) ∧
    (cfg.deletethreshold < 0 →
      Event.thresholdAbort ∉ (runMachine cfg w).1) ∧
    (cfg.deletethreshold ≥ 0 ∧
        (kindCount w.diffRes.stdoutLines "remove" : Int) >
          cfg.deletethreshold →
      (runMachine cfg w).2 = false ∧
      "sync" ∉ invokedCommands (runMachine cfg w).1) := by
  obtain ⟨he, hsnd⟩ := runMachine_to_threshold cfg w hpf ht hd
  obtain ⟨hiff, himp⟩ := thresholdStep_analysis cfg w (initialExtend cfg)
    (kindCount w.diffRes.stdoutLines)
  have hpre : Event.thresholdAbort ∉
      (if cfg.touch then
        [Event.invoked ⟨"touch", [], initialExtend cfg⟩ true] else []) := by
    split_ifs <;> simp
  have hmem_iff : Event.thresholdAbort ∈ (runMachine cfg w).1 ↔
      cfg.deletethreshold ≥ 0 ∧
        (kindCount w.diffRes.stdoutLines "remove" : Int) >
          cfg.deletethreshold := by
    rw [he, ← hiff]
    constructor
    · intro hm
      rcases List.mem_append.mp hm with hm | hm
      · exact absurd hm hpre
      · rcases List.mem_cons.mp hm with hm | hm
        · exact absurd hm (by simp)
        · exact hm
    · intro hm
      exact List.mem_append_right _ (List.mem_cons_of_mem _ hm)
  refine ⟨hmem_iff, ?_, ?_⟩
  · intro hneg hm
    have hcond := hmem_iff.mp hm
    omega
  · intro hcond
    obtain ⟨h2, h3⟩ := himp hcond
    refine ⟨by rw [hsnd]; exact h2, ?_⟩
    rw [he, invokedCommands_append, invokedCommands_cons_invoked, h3]
    split_ifs <;> simp [invokedCommands]

theorem C2_delete_threshold_guard_witness :
    Event.thresholdAbort ∈
      (runMachine
        ⟨"sb", "conf", "snapper", "snapraid", 0, false, false, "", false,
          false, "", 0, "", ""⟩
        ⟨true, true, true, true, ⟨0, [], []⟩, ⟨0, ["remove x"], []⟩,
          ⟨0, [], []⟩, ⟨0, [], []⟩, ⟨0, [], []⟩, ⟨0, [], []⟩⟩).1 :=
  (C2_delete_threshold_guard
    ⟨"sb", "conf", "snapper", "snapraid", 0, false, false, "", false,
      false, "", 0, "", ""⟩
    ⟨true, true, true, true, ⟨0, [], []⟩, ⟨0, ["remove x"], []⟩,
      ⟨0, [], []⟩, ⟨0, [], []⟩, ⟨0, [], []⟩, ⟨0, [], []⟩⟩
    (by decide) (by decide) (by decide)).1.mpr
    ⟨by decide, by decide⟩

/-- C4: when the diff reports zero counts for all four kinds (and the
run reaches the threshold check, which can never abort on a zero
removed-count), the sync step is skipped (the "No changes detected" event),
no sync command is spawned, the skip does not fail the run — it succeeds
when the remaining enabled steps succeed — and every subsequently enabled
step (pool, cleanup, scrub) still spawns its command. -/
theorem C4_noop_guard (cfg : Config) (w : World)
    (hpf : preflightOk w = true)
    (ht : cfg.touch = true → exitAllowed w.touchRes.exitCode [] = true)
    (hd : exitAllowed w.diffRes.exitCode [2] = true)
    (hz : kindCount w.diffRes.stdoutLines "remove" +
      kindCount w.diffRes.stdoutLines "add" +
      kindCount w.diffRes.stdoutLines "move" +
      kindCount w.diffRes.stdoutLines "update" = 0)
    (hp : cfg.pool = true → exitAllowed w.poolRes.exitCode [] = true)
    (hc : cfg.cleanup = true → exitAllowed w.cleanupRes.exitCode [] = true)
    (hs : cfg.scrubEnabled = true → exitAllowed w.scrubRes.exitCode [] = true) :
    Event.syncSkipped ∈ (runMachine cfg w).1 ∧
    "sync" ∉ invokedCommands (runMachine cfg w).1 ∧
    (runMachine cfg w).2 = true ∧
    (cfg.pool = true → "pool" ∈ invokedCommands (runMachine cfg w).1) ∧
    (cfg.cleanup = true → "cleanup" ∈ invokedCommands (runMachine cfg w).1) ∧
    (cfg.scrubEnabled = true →
      "scrub" ∈ invokedCommands (runMachine cfg w).1) := by
  obtain ⟨he, hsnd⟩ := runMachine_to_threshold cfg w hpf ht hd
  have hncond : ¬ (cfg.deletethreshold ≥ 0 ∧
      (kindCount w.diffRes.stdoutLines "remove" : Int) >
        cfg.deletethreshold) := by
    rintro ⟨ha, hb⟩
    have hrem : kindCount w.diffRes.stdoutLines "remove" = 0 := by omega
    rw [hrem] at hb
    norm_num at hb
    omega
  have hth : (thresholdStep cfg w (initialExtend cfg)
        (kindCount w.diffRes.stdoutLines)).1 =
      Event.syncSkipped :: (poolStep cfg w (initialExtend cfg)).1 ∧
      (thresholdStep cfg w (initialExtend cfg)
        (kindCount w.diffRes.stdoutLines)).2 =
      (poolStep cfg w (initialExtend cfg)).2 := by
    unfold thresholdStep
    rw [if_neg hncond]
    unfold syncStep
    rw [if_pos (by simpa using hz)]
    exact ⟨rfl, rfl⟩
  have hcmds : invokedCommands (runMachine cfg w).1 =
      (if cfg.touch then ["touch"] else []) ++ "diff" ::
        ((if cfg.pool then ["pool"] else []) ++
          (if cfg.cleanup then ["cleanup"] else []) ++
          (if cfg.scrubEnabled then ["scrub"] else [])) := by
    rw [he, invokedCommands_append, invokedCommands_cons_invoked, hth.1,
      invokedCommands_cons_syncSkipped, invokedCommands_poolStep _ _ _ hp hc]
    split_ifs <;> simp [invokedCommands]
  refine ⟨?_, ?_, ?_, ?_, ?_, ?_⟩
  · rw [he, hth.1]
    exact List.mem_append_right _ (List.mem_cons_of_mem _ (by simp))
  · rw [hcmds]
    split_ifs <;> simp
  · rw [hsnd, hth.2]
    exact poolStep_snd cfg w _ hp hc hs
  · intro h
    rw [hcmds]
    simp [h]
  · intro h
    rw [hcmds]
    simp [h]
  · intro h
    rw [hcmds]
    simp [h]

theorem C4_noop_guard_witness :
    (runMachine
      ⟨"sb", "conf", "snapper", "snapraid", 0, false, true, "/pool", true,
        true, "80", 30, "", ""⟩
      ⟨true, true, true, true, ⟨0, [], []⟩, ⟨0, [], []⟩, ⟨0, [], []⟩,
        ⟨0, [], []⟩, ⟨0, [], []⟩, ⟨0, [], []⟩⟩).2 = true :=
  (C4_noop_guard
    ⟨"sb", "conf", "snapper", "snapraid", 0, false, true, "/pool", true,
      true, "80", 30, "", ""⟩
    ⟨true, true, true, true, ⟨0, [], []⟩, ⟨0, [], []⟩, ⟨0, [], []⟩,
      ⟨0, [], []⟩, ⟨0, [], []⟩, ⟨0, [], []⟩⟩
    (by decide) (by decide) (by decide) (by decide) (by decide) (by decide)
    (by decide)).2.2.1

/-- C5: whenever scrub is enabled, a plan string that parses as an integer
makes the scrub command receive both the `plan` flag and the `older-than`
flag; a symbolic plan makes it receive only the `plan` flag — no
`older-than` pair is passed — and the older-than warning is logged exactly
when the configured older-than value is positive. -/
theorem C5_scrub_plan_flags (cfg : Config) (w : World)
    (ext : List (String × String)) (hs : cfg.scrubEnabled = true) :
    (∀ n : Int, pyParseInt cfg.scrubPlan = some n →
      (∃ ok, Event.invoked
        ⟨"scrub",
          [("plan", cfg.scrubPlan),
           ("older-than", toString cfg.scrubOlderThan)], ext⟩ ok ∈
        (scrubStep cfg w ext).1) ∧
      Event.warnOlderThanIgnored ∉ (scrubStep cfg w ext).1) ∧
    (pyParseInt cfg.scrubPlan = none →
      (∃ ok, Event.invoked ⟨"scrub", [("plan", cfg.scrubPlan)], ext⟩ ok ∈
        (scrubStep cfg w ext).1) ∧
      (∀ v, ("older-than", v) ∉ scrubSnapraidArgs cfg) ∧
      (Event.warnOlderThanIgnored ∈ (scrubStep cfg w ext).1 ↔
        cfg.scrubOlderThan > 0)) := by
  constructor
  · intro n hn
    have hargs : scrubSnapraidArgs cfg =
        [("plan", cfg.scrubPlan),
         ("older-than", toString cfg.scrubOlderThan)] := by
      simp [scrubSnapraidArgs, hn]
    have hwarn : scrubWarns cfg = false := by simp [scrubWarns, hn]
    by_cases hok : exitAllowed w.scrubRes.exitCode [] = true
    · exact ⟨⟨true, by simp [scrubStep, hs, hok, hwarn, hargs]⟩,
        by simp [scrubStep, hs, hok, hwarn]⟩
    · have hok' : exitAllowed w.scrubRes.exitCode [] = false := by
        simpa using hok
      exact ⟨⟨false, by simp [scrubStep, hs, hok', hwarn, hargs]⟩,
        by simp [scrubStep, hs, hok', hwarn]⟩
  · intro hn
    have hargs : scrubSnapraidArgs cfg = [("plan", cfg.scrubPlan)] := by
      simp [scrubSnapraidArgs, hn]
    have hwarn : scrubWarns cfg = decide (cfg.scrubOlderThan > 0) := by
      simp [scrubWarns, hn]
    refine ⟨?_, ?_, ?_⟩
    · by_cases hok : exitAllowed w.scrubRes.exitCode [] = true
      · exact ⟨true, by simp [scrubStep, hs, hok, hargs]⟩
      · have hok' : exitAllowed w.scrubRes.exitCode [] = false := by
          simpa using hok
        exact ⟨false, by simp [scrubStep, hs, hok', hargs]⟩
    · intro v
      rw [hargs]
      simp
    · by_cases hok : exitAllowed w.scrubRes.exitCode [] = true
      · simp [scrubStep, hs, hok, hwarn]
      · have hok' : exitAllowed w.scrubRes.exitCode [] = false := by
          simpa using hok
        simp [scrubStep, hs, hok', hwarn]

theorem C5_scrub_plan_flags_witness :
    (∃ ok, Event.invoked
      ⟨"scrub", [("plan", "80"), ("older-than", toString (30 : Int))], []⟩
      ok ∈
      (scrubStep
        ⟨"sb", "conf", "snapper", "snapraid", 0, false, false, "", false,
          true, "80", 30, "", ""⟩
        ⟨true, true, true, true, ⟨0, [], []⟩, ⟨0, [], []⟩, ⟨0, [], []⟩,
          ⟨0, [], []⟩, ⟨0, [], []⟩, ⟨0, [], []⟩⟩ []).1) ∧
    (∃ ok, Event.invoked ⟨"scrub", [("plan", "full")], []⟩ ok ∈
      (scrubStep
        ⟨"sb", "conf", "snapper", "snapraid", 0, false, false, "", false,
          true, "full", 30, "", ""⟩
        ⟨true, true, true, true, ⟨0, [], []⟩, ⟨0, [], []⟩, ⟨0, [], []⟩,
          ⟨0, [], []⟩, ⟨0, [], []⟩, ⟨0, [], []⟩⟩ []).1) :=
  ⟨((C5_scrub_plan_flags
      ⟨"sb", "conf", "snapper", "snapraid", 0, false, false, "", false,
        true, "80", 30, "", ""⟩
      ⟨true, true, true, true, ⟨0, [], []⟩, ⟨0, [], []⟩, ⟨0, [], []⟩,
        ⟨0, [], []⟩, ⟨0, [], []⟩, ⟨0, [], []⟩⟩ [] rfl).1 80
      (by decide)).1,
   ((C5_scrub_plan_flags
      ⟨"sb", "conf", "snapper", "snapraid", 0, false, false, "", false,
        true, "full", 30, "", ""⟩
      ⟨true, true, true, true, ⟨0, [], []⟩, ⟨0, [], []⟩, ⟨0, [], []⟩,
        ⟨0, [], []⟩, ⟨0, [], []⟩, ⟨0, [], []⟩⟩ [] rfl).2
      (by decide)).1⟩

theorem flag_mem_commandArgv (cfg : Config) (c : String)
    (bArgs sArgs : List (String × String)) (k v : String)
    (h : (k, v) ∈ bArgs) :
    ("--" ++ k) ∈ commandArgv cfg c bArgs sArgs := by
  have hf : ("--" ++ k) ∈ flagList bArgs := by
    simp only [flagList, List.mem_flatten]
    exact ⟨["--" ++ k, v], List.mem_map.mpr ⟨(k, v), h, rfl⟩, by simp⟩
  simp only [commandArgv, snapraidBtrfsArguments, List.append_assoc,
    List.mem_append]
  tauto

theorem cleanup_invocation_mem (cfg : Config) (w : World)
    (ext : List (String × String)) (h : cfg.cleanup = true) :
    ∃ ok, Event.invoked ⟨"cleanup", [], ext⟩ ok ∈
      (cleanupStep cfg w ext).1 := by
  by_cases hok : exitAllowed w.cleanupRes.exitCode [] = true
  · exact ⟨true, by simp [cleanupStep, h, hok]⟩
  · have hok' : exitAllowed w.cleanupRes.exitCode [] = false := by
      simpa using hok
    exact ⟨false, by simp [cleanupStep, h, hok']⟩

theorem scrub_invocation_mem (cfg : Config) (w : World)
    (ext : List (String × String)) (h : cfg.scrubEnabled = true) :
    ∃ ok, Event.invoked ⟨"scrub", scrubSnapraidArgs cfg, ext⟩ ok ∈
      (scrubStep cfg w ext).1 := by
  by_cases hok : exitAllowed w.scrubRes.exitCode [] = true
  · exact ⟨true, by simp [scrubStep, h, hok]⟩
  · have hok' : exitAllowed w.scrubRes.exitCode [] = false := by
      simpa using hok
    exact ⟨false, by simp [scrubStep, h, hok']⟩

theorem scrub_invocation_mem_cleanupStep (cfg : Config) (w : World)
    (ext : List (String × String))
    (hc : cfg.cleanup = true → exitAllowed w.cleanupRes.exitCode [] = true)
    (h : cfg.scrubEnabled = true) :
    ∃ ok, Event.invoked ⟨"scrub", scrubSnapraidArgs cfg, ext⟩ ok ∈
      (cleanupStep cfg w ext).1 := by
  obtain ⟨ok, hok⟩ := scrub_invocation_mem cfg w ext h
  by_cases hcl : cfg.cleanup = true
  · exact ⟨ok, by simp only [cleanupStep, hcl, if_true, hc hcl]
                  exact List.mem_cons_of_mem _ hok⟩
  · have hcl' : cfg.cleanup = false := by simpa using hcl
    exact ⟨ok, by simpa [cleanupStep, hcl'] using hok⟩

/-- C10: when the pool step is enabled with a configured pool-dir, the
shared `snapraid_btrfs_args_extend` map is extended in place when the pool
step runs, so every command the pool step and everything after it spawns —
pool itself, and cleanup and scrub when enabled — carries the `pool-dir`
pair in its snapraid-btrfs argument map and hence the `--pool-dir` flag in
its argument vector. -/
theorem C10_pool_dir_propagates (cfg : Config) (w : World)
    (ext : List (String × String)) (hp : cfg.pool = true)
    (hd : cfg.poolDir.length > 0) :
    (∀ inv ok, Event.invoked inv ok ∈ (poolStep cfg w ext).1 →
      ("pool-dir", cfg.poolDir) ∈ inv.snapraidBtrfsArgs ∧
      "--pool-dir" ∈ commandArgv cfg inv.command inv.snapraidBtrfsArgs
        inv.snapraidArgs) ∧
    (exitAllowed w.poolRes.exitCode [] = true → cfg.cleanup = true →
      ∃ ok, Event.invoked
        ⟨"cleanup", [], ext ++ [("pool-dir", cfg.poolDir)]⟩ ok ∈
        (poolStep cfg w ext).1) ∧
    (exitAllowed w.poolRes.exitCode [] = true →
      (cfg.cleanup = true → exitAllowed w.cleanupRes.exitCode [] = true) →
      cfg.scrubEnabled = true →
      ∃ ok, Event.invoked
        ⟨"scrub", scrubSnapraidArgs cfg,
          ext ++ [("pool-dir", cfg.poolDir)]⟩ ok ∈
        (poolStep cfg w ext).1) := by
  have hpool_eq : (poolStep cfg w ext).1 =
      (if exitAllowed w.poolRes.exitCode [] = true then
        Event.invoked
          ⟨"pool", [], ext ++ [("pool-dir", cfg.poolDir)]⟩ true ::
          (cleanupStep cfg w (ext ++ [("pool-dir", cfg.poolDir)])).1
      else
        [Event.invoked
          ⟨"pool", [], ext ++ [("pool-dir", cfg.poolDir)]⟩ false]) := by
    by_cases hok : exitAllowed w.poolRes.exitCode [] = true
    · simp [poolStep, hp, hd, hok]
    · have hok' : exitAllowed w.poolRes.exitCode [] = false := by
        simpa using hok
      simp [poolStep, hp, hd, hok']
  have hpair : ("pool-dir", cfg.poolDir) ∈
      ext ++ [("pool-dir", cfg.poolDir)] := by simp
  refine ⟨?_, ?_, ?_⟩
  · intro inv ok hm
    rw [hpool_eq] at hm
    have hargs : inv.snapraidBtrfsArgs = ext ++ [("pool-dir", cfg.poolDir)] := by
      by_cases hok : exitAllowed w.poolRes.exitCode [] = true
      · rw [if_pos hok] at hm
        rcases List.mem_cons.mp hm with hm | hm
        · simp only [Event.invoked.injEq] at hm
          rw [hm.1]
        · exact cleanupStep_inv_args cfg w _ inv ok hm
      · rw [if_neg hok] at hm
        simp only [List.mem_singleton, Event.invoked.injEq] at hm
        rw [hm.1]
    refine ⟨hargs ▸ hpair, ?_⟩
    have := flag_mem_commandArgv cfg inv.command inv.snapraidBtrfsArgs
      inv.snapraidArgs "pool-dir" cfg.poolDir (hargs ▸ hpair)
    simpa using this
  · intro hok hcl
    obtain ⟨ok, hm⟩ :=
      cleanup_invocation_mem cfg w (ext ++ [("pool-dir", cfg.poolDir)]) hcl
    refine ⟨ok, ?_⟩
    rw [hpool_eq, if_pos hok]
    exact List.mem_cons_of_mem _ hm
  · intro hok hc hsc
    obtain ⟨ok, hm⟩ := scrub_invocation_mem_cleanupStep cfg w
      (ext ++ [("pool-dir", cfg.poolDir)]) hc hsc
    refine ⟨ok, ?_⟩
    rw [hpool_eq, if_pos hok]
    exact List.mem_cons_of_mem _ hm

theorem C10_pool_dir_propagates_witness :
    ∃ ok, Event.invoked ⟨"cleanup", [], [("pool-dir", "/pool")]⟩ ok ∈
      (poolStep
        ⟨"sb", "conf", "snapper", "snapraid", 0, false, true, "/pool",
          true, true, "80", 30, "", ""⟩
        ⟨true, true, true, true, ⟨0, [], []⟩, ⟨0, [], []⟩, ⟨0, [], []⟩,
          ⟨0, [], []⟩, ⟨0, [], []⟩, ⟨0, [], []⟩⟩ []).1 :=
  (C10_pool_dir_propagates
    ⟨"sb", "conf", "snapper", "snapraid", 0, false, true, "/pool", true,
      true, "80", 30, "", ""⟩
    ⟨true, true, true, true, ⟨0, [], []⟩, ⟨0, [], []⟩, ⟨0, [], []⟩,
      ⟨0, [], []⟩, ⟨0, [], []⟩, ⟨0, [], []⟩⟩ [] rfl
    (by decide)).2.1 (by decide) rfl

end SnapraidBtrfsRunner
